import Mathlib

/-!
# Verification of the QMD GRPO training core

Shallow embedding of the reward scorer (`finetune-mlx/eval.py`), the GRPO
step and evaluation pass (`finetune-mlx/grpo.py`), and the dataset output
reordering helper (`finetune/dataset/schema.py`), with proofs of the
specified properties.

Python strings are embedded as `List Char`; `str.strip`, `str.split("\n")`
and `str.startswith` are given by structural recursion so that every
definition evaluates inside the kernel.
-/

namespace QMD

/-- The whitespace characters removed by Python's `str.strip()`
(the ASCII ones; the inputs in this development contain no others). -/
def pyIsSpace (c : Char) : Bool :=
  c = ' ' ∨ c = '\t' ∨ c = '\n' ∨ c = '\r' ∨ c = '\x0b' ∨ c = '\x0c'

/-- Python `s.strip()`: drop leading and trailing whitespace. -/
def pyStrip (s : List Char) : List Char :=
  ((s.dropWhile pyIsSpace).reverse.dropWhile pyIsSpace).reverse

/-- Python `s.split("\n")`: split at every newline; `"".split("\n") == [""]`. -/
def pySplitNL : List Char → List (List Char)
  | [] => [[]]
  | c :: cs =>
    match pySplitNL cs with
    | [] => [[]]
    | h :: t => if c = '\n' then [] :: h :: t else (c :: h) :: t

/-- Python `s.startswith(pre)`. -/
def pyStartsWith (pre s : List Char) : Bool :=
  List.isPrefixOf pre s

/-- The literal prefix `"lex:"` tested by the scorer. -/
def lexTag : List Char := "lex:".toList

/-- The literal prefix `"vec:"` tested by the scorer. -/
def vecTag : List Char := "vec:".toList

/-- The literal prefix `"hyde:"` tested by the scorer. -/
def hydeTag : List Char := "hyde:".toList

/-- The dict returned by `score_expansion` in `finetune-mlx/eval.py`
(keys `has_lex, has_vec, has_hyde, lex_count, vec_count, format_valid, total`).
All its values are nonnegative integers in the source. -/
@[ext]
structure RewardScore where
  has_lex : Nat
  has_vec : Nat
  has_hyde : Nat
  lex_count : Nat
  vec_count : Nat
  format_valid : Nat
  total : Nat
  deriving Repr, DecidableEq

/-- The body of the `for line in lines` loop of `score_expansion`
(eval.py lines 52-61): strip the line, then the `if/elif` chain on the
literal prefixes `"lex:"`, `"vec:"`, `"hyde:"`. -/
def scoreStep (s : RewardScore) (line : List Char) : RewardScore :=
  let line := pyStrip line
  if pyStartsWith lexTag line then
    { s with has_lex := 1, lex_count := s.lex_count + 1 }
  else if pyStartsWith vecTag line then
    { s with has_vec := 1, vec_count := s.vec_count + 1 }
  else if pyStartsWith hydeTag line then
    { s with has_hyde := 1 }
  else s

/-- `score_expansion` after the line split: the loop over the lines, the
`format_valid` check (Python truthiness: all three flags nonzero), and the
total formula (eval.py lines 40-75). -/
def scoreOfLines (lines : List (List Char)) : RewardScore :=
  let s0 : RewardScore := ⟨0, 0, 0, 0, 0, 0, 0⟩
  let s := lines.foldl scoreStep s0
  let fv : Nat := if s.has_lex ≠ 0 ∧ s.has_vec ≠ 0 ∧ s.has_hyde ≠ 0 then 1 else 0
  let tot := fv * 40 + min s.lex_count 3 * 10 + min s.vec_count 3 * 10 + s.has_hyde * 20
  { s with format_valid := fv, total := tot }

/-- `score_expansion(text)` of `finetune-mlx/eval.py`:
`lines = text.strip().split("\n")`, then the scoring loop. -/
def score_expansion (text : String) : RewardScore :=
  scoreOfLines (pySplitNL (pyStrip text.toList))

/-- A stripped line takes the `lex:` branch of the `if/elif` chain. -/
def isLexLine (l : List Char) : Bool := pyStartsWith lexTag (pyStrip l)

/-- A stripped line takes the `vec:` branch of the `if/elif` chain. -/
def isVecLine (l : List Char) : Bool :=
  ¬ pyStartsWith lexTag (pyStrip l) ∧ pyStartsWith vecTag (pyStrip l)

/-- A stripped line takes the `hyde:` branch of the `if/elif` chain. -/
def isHydeLine (l : List Char) : Bool :=
  ¬ pyStartsWith lexTag (pyStrip l) ∧ ¬ pyStartsWith vecTag (pyStrip l) ∧
    pyStartsWith hydeTag (pyStrip l)

section ScoreFold

lemma foldl_scoreStep_lex_count (lines : List (List Char)) (s : RewardScore) :
    (lines.foldl scoreStep s).lex_count = s.lex_count + lines.countP isLexLine := by
  induction lines generalizing s with
  | nil => simp
  | cons l ls ih =>
    simp only [List.foldl_cons, List.countP_cons, ih]
    by_cases h1 : pyStartsWith lexTag (pyStrip l) <;>
      by_cases h2 : pyStartsWith vecTag (pyStrip l) <;>
      by_cases h3 : pyStartsWith hydeTag (pyStrip l) <;>
      simp [scoreStep, isLexLine, h1, h2, h3] <;> omega

lemma foldl_scoreStep_vec_count (lines : List (List Char)) (s : RewardScore) :
    (lines.foldl scoreStep s).vec_count = s.vec_count + lines.countP isVecLine := by
  induction lines generalizing s with
  | nil => simp
  | cons l ls ih =>
    simp only [List.foldl_cons, List.countP_cons, ih]
    by_cases h1 : pyStartsWith lexTag (pyStrip l) <;>
      by_cases h2 : pyStartsWith vecTag (pyStrip l) <;>
      by_cases h3 : pyStartsWith hydeTag (pyStrip l) <;>
      simp [scoreStep, isVecLine, h1, h2, h3] <;> omega

lemma foldl_scoreStep_has_lex (lines : List (List Char)) (s : RewardScore) :
    (lines.foldl scoreStep s).has_lex = if lines.any isLexLine then 1 else s.has_lex := by
  induction lines generalizing s with
  | nil => simp
  | cons l ls ih =>
    simp only [List.foldl_cons, List.any_cons, ih]
    by_cases h1 : pyStartsWith lexTag (pyStrip l) <;>
      by_cases h2 : pyStartsWith vecTag (pyStrip l) <;>
      by_cases h3 : pyStartsWith hydeTag (pyStrip l) <;>
      simp [scoreStep, isLexLine, h1, h2, h3]

lemma foldl_scoreStep_has_vec (lines : List (List Char)) (s : RewardScore) :
    (lines.foldl scoreStep s).has_vec = if lines.any isVecLine then 1 else s.has_vec := by
  induction lines generalizing s with
  | nil => simp
  | cons l ls ih =>
    simp only [List.foldl_cons, List.any_cons, ih]
    by_cases h1 : pyStartsWith lexTag (pyStrip l) <;>
      by_cases h2 : pyStartsWith vecTag (pyStrip l) <;>
      by_cases h3 : pyStartsWith hydeTag (pyStrip l) <;>
      simp [scoreStep, isVecLine, h1, h2, h3]

lemma foldl_scoreStep_has_hyde (lines : List (List Char)) (s : RewardScore) :
    (lines.foldl scoreStep s).has_hyde = if lines.any isHydeLine then 1 else s.has_hyde := by
  induction lines generalizing s with
  | nil => simp
  | cons l ls ih =>
    simp only [List.foldl_cons, List.any_cons, ih]
    by_cases h1 : pyStartsWith lexTag (pyStrip l) <;>
      by_cases h2 : pyStartsWith vecTag (pyStrip l) <;>
      by_cases h3 : pyStartsWith hydeTag (pyStrip l) <;>
      simp [scoreStep, isHydeLine, h1, h2, h3]

lemma foldl_scoreStep_format_valid (lines : List (List Char)) (s : RewardScore) :
    (lines.foldl scoreStep s).format_valid = s.format_valid := by
  induction lines generalizing s with
  | nil => simp
  | cons l ls ih =>
    simp only [List.foldl_cons, ih]
    by_cases h1 : pyStartsWith lexTag (pyStrip l) <;>
      by_cases h2 : pyStartsWith vecTag (pyStrip l) <;>
      by_cases h3 : pyStartsWith hydeTag (pyStrip l) <;>
      simp [scoreStep, h1, h2, h3]

lemma scoreOfLines_lex_count (lines : List (List Char)) :
    (scoreOfLines lines).lex_count = lines.countP isLexLine := by
  simp [scoreOfLines, foldl_scoreStep_lex_count]

lemma scoreOfLines_vec_count (lines : List (List Char)) :
    (scoreOfLines lines).vec_count = lines.countP isVecLine := by
  simp [scoreOfLines, foldl_scoreStep_vec_count]

lemma scoreOfLines_has_lex (lines : List (List Char)) :
    (scoreOfLines lines).has_lex = if lines.any isLexLine then 1 else 0 := by
  simp only [scoreOfLines, foldl_scoreStep_has_lex]

lemma scoreOfLines_has_vec (lines : List (List Char)) :
    (scoreOfLines lines).has_vec = if lines.any isVecLine then 1 else 0 := by
  simp only [scoreOfLines, foldl_scoreStep_has_vec]

lemma scoreOfLines_has_hyde (lines : List (List Char)) :
    (scoreOfLines lines).has_hyde = if lines.any isHydeLine then 1 else 0 := by
  simp only [scoreOfLines, foldl_scoreStep_has_hyde]

lemma scoreOfLines_format_valid (lines : List (List Char)) :
    (scoreOfLines lines).format_valid =
      if lines.any isLexLine ∧ lines.any isVecLine ∧ lines.any isHydeLine then 1 else 0 := by
  simp only [scoreOfLines, foldl_scoreStep_has_lex, foldl_scoreStep_has_vec,
    foldl_scoreStep_has_hyde]
  by_cases hl : lines.any isLexLine <;> by_cases hv : lines.any isVecLine <;>
    by_cases hh : lines.any isHydeLine <;> simp [hl, hv, hh]

lemma scoreOfLines_total (lines : List (List Char)) :
    (scoreOfLines lines).total =
      (scoreOfLines lines).format_valid * 40 + min (scoreOfLines lines).lex_count 3 * 10 +
        min (scoreOfLines lines).vec_count 3 * 10 + (scoreOfLines lines).has_hyde * 20 := by
  simp only [scoreOfLines]

/-- The total of any score is at most `120`
(format gate `40` + capped lex `30` + capped vec `30` + hyde `20`). -/
lemma scoreOfLines_total_le (lines : List (List Char)) :
    (scoreOfLines lines).total ≤ 120 := by
  rw [scoreOfLines_total, scoreOfLines_format_valid, scoreOfLines_has_hyde]
  have h1 : min (scoreOfLines lines).lex_count 3 ≤ 3 := min_le_right _ _
  have h2 : min (scoreOfLines lines).vec_count 3 ≤ 3 := min_le_right _ _
  by_cases hl : lines.any isLexLine <;> by_cases hv : lines.any isVecLine <;>
    by_cases hh : lines.any isHydeLine <;> simp [hl, hv, hh] <;> omega

end ScoreFold

/-- C1: `score_expansion` splits the (stripped) text into lines, strips each
line and tests the literal, case-sensitive prefixes `lex:`, `vec:`, `hyde:`
(by the `if/elif` chain, so each line takes at most one branch);
`format_valid` is `1` iff all three types occur; the total is
`format_valid*40 + min(lex_count,3)*10 + min(vec_count,3)*10 + has_hyde*20`;
the empty string scores `total = 0` and `format_valid = 0`; uppercase
variants (`LEX:`, `VEC:`, `HYDE:`) never match.  The scorer is a total
function: it never fails on malformed input. -/
theorem score_expansion_correct (text : String) :
    (score_expansion text).lex_count =
        (pySplitNL (pyStrip text.toList)).countP isLexLine ∧
    (score_expansion text).vec_count =
        (pySplitNL (pyStrip text.toList)).countP isVecLine ∧
    (score_expansion text).has_hyde =
        (if (pySplitNL (pyStrip text.toList)).any isHydeLine then 1 else 0) ∧
    ((score_expansion text).format_valid = 1 ↔
      ((pySplitNL (pyStrip text.toList)).any isLexLine ∧
       (pySplitNL (pyStrip text.toList)).any isVecLine ∧
       (pySplitNL (pyStrip text.toList)).any isHydeLine)) ∧
    ((score_expansion text).format_valid = 0 ∨ (score_expansion text).format_valid = 1) ∧
    (score_expansion text).total =
      (score_expansion text).format_valid * 40 +
        min (score_expansion text).lex_count 3 * 10 +
        min (score_expansion text).vec_count 3 * 10 +
        (score_expansion text).has_hyde * 20 ∧
    (score_expansion "").total = 0 ∧
    (score_expansion "").format_valid = 0 ∧
    (score_expansion "LEX: a\nVEC: b\nHYDE: c").total = 0 ∧
    (score_expansion "lex: a\nvec: b\nhyde: c").total = 80 := by
  refine ⟨scoreOfLines_lex_count _, scoreOfLines_vec_count _, scoreOfLines_has_hyde _,
    ?_, ?_, scoreOfLines_total _, by decide, by decide, by decide, by decide⟩
  · rw [score_expansion, scoreOfLines_format_valid]
    split_ifs with h
    · exact iff_of_true rfl h
    · exact iff_of_false (by decide) h
  · rw [score_expansion, scoreOfLines_format_valid]
    split_ifs with h
    · right; rfl
    · left; rfl

/-- C6: the total is NOT bounded by `100`: a text with three `lex:` lines,
three `vec:` lines and one `hyde:` line scores
`40 + 30 + 30 + 20 = 120 > 100`, although the code's own comment documents
the total as `(0-100)` and the evaluation output prints `total/100`. -/
theorem score_expansion_total_reaches_120 :
    (score_expansion "lex:a\nlex:b\nlex:c\nvec:a\nvec:b\nvec:c\nhyde:x").total = 120 ∧
    ¬ (score_expansion "lex:a\nlex:b\nlex:c\nvec:a\nvec:b\nvec:c\nhyde:x").total ≤ 100 := by
  exact ⟨by decide, by decide⟩

/-- C7 counterexample: the scorer tracks NO occurrence count for `hyde:`.
The two texts below differ only in their number of `hyde:` lines (2 vs 1,
both within the claimed cap of 3), yet the scorer returns identical results
in every field; by contrast one extra `vec:` line does change the total,
showing that an occurrence count exists for vec (and lex) but not hyde. -/
theorem hyde_occurrences_not_counted :
    score_expansion "lex:a\nvec:b\nhyde:c\nhyde:d" = score_expansion "lex:a\nvec:b\nhyde:c" ∧
    (pySplitNL (pyStrip "lex:a\nvec:b\nhyde:c\nhyde:d".toList)).countP isHydeLine = 2 ∧
    (pySplitNL (pyStrip "lex:a\nvec:b\nhyde:c".toList)).countP isHydeLine = 1 ∧
    (score_expansion "lex:a\nvec:b\nvec:e\nhyde:c").total ≠
      (score_expansion "lex:a\nvec:b\nhyde:c").total := by
  exact ⟨by decide, by decide, by decide, by decide⟩

lemma isHydeLine_elim {l : List Char} (h : isHydeLine l = true) :
    pyStartsWith lexTag (pyStrip l) = false ∧ pyStartsWith vecTag (pyStrip l) = false ∧
      pyStartsWith hydeTag (pyStrip l) = true := by
  simpa [isHydeLine] using h

/-- C7 amended: the scorer tracks occurrence counts only for `lex` and
`vec` — multiple lines of those types all count, and their contribution to
the total is capped at 3 occurrences each — while `hyde` has only a
presence flag worth 20 points once: appending a further `hyde:` line to a
text that already has one leaves the entire score unchanged. -/
theorem score_counts_amended (ls : List (List Char)) (h : List Char)
    (hhyde : isHydeLine h = true) :
    (scoreOfLines ls).lex_count = ls.countP isLexLine ∧
    (scoreOfLines ls).vec_count = ls.countP isVecLine ∧
    (scoreOfLines ls).total = (scoreOfLines ls).format_valid * 40 +
      min (ls.countP isLexLine) 3 * 10 + min (ls.countP isVecLine) 3 * 10 +
      (scoreOfLines ls).has_hyde * 20 ∧
    ((scoreOfLines ls).has_hyde = 1 → scoreOfLines (ls ++ [h]) = scoreOfLines ls) := by
  refine ⟨scoreOfLines_lex_count _, scoreOfLines_vec_count _, ?_, ?_⟩
  · rw [scoreOfLines_total, scoreOfLines_lex_count, scoreOfLines_vec_count]
  · intro hpresent
    have hs : (List.foldl scoreStep ⟨0, 0, 0, 0, 0, 0, 0⟩ ls).has_hyde = 1 := hpresent
    have hstep : scoreStep (List.foldl scoreStep ⟨0, 0, 0, 0, 0, 0, 0⟩ ls) h =
        List.foldl scoreStep ⟨0, 0, 0, 0, 0, 0, 0⟩ ls := by
      obtain ⟨h1, h2, h3⟩ := isHydeLine_elim hhyde
      simp only [scoreStep, h1, h2, h3, Bool.false_eq_true, if_false, if_true]
      ext <;> simp [hs]
    simp only [scoreOfLines, List.foldl_append, List.foldl_cons, List.foldl_nil, hstep]

/-- Witness for `score_counts_amended` at a concrete input: appending
`hyde:d` to a text that already contains a `hyde:` line leaves the score
unchanged. -/
theorem score_counts_amended_witness :
    scoreOfLines (["lex:a".toList, "vec:b".toList, "hyde:c".toList] ++ ["hyde:d".toList]) =
      scoreOfLines ["lex:a".toList, "vec:b".toList, "hyde:c".toList] :=
  (score_counts_amended ["lex:a".toList, "vec:b".toList, "hyde:c".toList]
    "hyde:d".toList (by decide)).2.2.2 (by decide)

/-! ## The dataset output reordering helper (`finetune/dataset/schema.py`) -/

/-- The Python test `item and item[0] == t` used by the three list
comprehensions of `reorder_hyde_first` (schema.py lines 164-166): an empty
item is falsy, otherwise its first element is compared with the type name. -/
def itemIs (t : String) (item : List String) : Bool :=
  match item with
  | [] => false
  | ty :: _ => ty == t

/-- `reorder_hyde_first(items)` of `finetune/dataset/schema.py`: the hyde
items, then the lex items, then the vec items. -/
def reorder_hyde_first (items : List (List String)) : List (List String) :=
  items.filter (itemIs "hyde") ++ items.filter (itemIs "lex") ++ items.filter (itemIs "vec")

lemma itemIs_ne {t t' : String} (hne : t' ≠ t) {i : List String}
    (h : itemIs t i = true) : itemIs t' i = false := by
  cases i with
  | nil => simp [itemIs] at h
  | cons ty rest =>
    simp only [itemIs, beq_iff_eq] at h
    simp only [itemIs, beq_eq_false_iff_ne, ne_eq]
    exact fun hc => hne (hc ▸ h ▸ rfl)

lemma reorder_hyde_first_of_sorted (hs ls vs : List (List String))
    (hh : ∀ i ∈ hs, itemIs "hyde" i = true)
    (hl : ∀ i ∈ ls, itemIs "lex" i = true)
    (hv : ∀ i ∈ vs, itemIs "vec" i = true) :
    reorder_hyde_first (hs ++ ls ++ vs) = hs ++ ls ++ vs := by
  have filterOf : ∀ (t : String) (l : List (List String)),
      (∀ i ∈ l, itemIs t i = true) → l.filter (itemIs t) = l :=
    fun t l h => List.filter_eq_self.mpr h
  have filterNot : ∀ (t t' : String), t' ≠ t → ∀ (l : List (List String)),
      (∀ i ∈ l, itemIs t i = true) → l.filter (itemIs t') = [] := by
    intro t t' hne l h
    rw [List.filter_eq_nil_iff]
    intro a ha
    simp [itemIs_ne hne (h a ha)]
  simp only [reorder_hyde_first, List.filter_append]
  rw [filterOf _ _ hh, filterOf _ _ hl, filterOf _ _ hv,
    filterNot "lex" "hyde" (by decide) _ hl, filterNot "vec" "hyde" (by decide) _ hv,
    filterNot "hyde" "lex" (by decide) _ hh, filterNot "vec" "lex" (by decide) _ hv,
    filterNot "hyde" "vec" (by decide) _ hh, filterNot "lex" "vec" (by decide) _ hl]
  simp

/-- C9: on a list already ordered hyde-first, then lex, then vec,
`reorder_hyde_first` is the identity; and on any list at all it is
idempotent. -/
theorem reorder_hyde_first_noop (hs ls vs : List (List String))
    (hh : ∀ i ∈ hs, itemIs "hyde" i = true)
    (hl : ∀ i ∈ ls, itemIs "lex" i = true)
    (hv : ∀ i ∈ vs, itemIs "vec" i = true) :
    reorder_hyde_first (hs ++ ls ++ vs) = hs ++ ls ++ vs ∧
    ∀ items : List (List String),
      reorder_hyde_first (reorder_hyde_first items) = reorder_hyde_first items := by
  refine ⟨reorder_hyde_first_of_sorted hs ls vs hh hl hv, fun items => ?_⟩
  exact reorder_hyde_first_of_sorted _ _ _
    (fun i hi => List.of_mem_filter hi)
    (fun i hi => List.of_mem_filter hi)
    (fun i hi => List.of_mem_filter hi)

/-- Witness for `reorder_hyde_first_noop` at a concrete ordered list. -/
theorem reorder_hyde_first_noop_witness :
    reorder_hyde_first ([[("hyde" : String), "a"]] ++ [["lex", "b"]] ++ [["vec", "c"]]) =
      [[("hyde" : String), "a"]] ++ [["lex", "b"]] ++ [["vec", "c"]] :=
  (reorder_hyde_first_noop [[("hyde" : String), "a"]] [["lex", "b"]] [["vec", "c"]]
    (by decide) (by decide) (by decide)).1

/-! ## The GRPO step (`finetune-mlx/grpo.py`), over the reals -/

noncomputable section

/-- `mean_reward = sum(rewards) / len(rewards)` (grpo.py line 111). -/
def mean_reward (rewards : List ℝ) : ℝ := rewards.sum / rewards.length

/-- `std_reward = math.sqrt(sum((r - mean_reward)**2 for r in rewards) / len(rewards) + 1e-8)`
(grpo.py line 114): population standard deviation with the `1e-8` floor
under the square root. -/
def std_reward (rewards : List ℝ) : ℝ :=
  Real.sqrt ((rewards.map fun r => (r - mean_reward rewards) ^ 2).sum / rewards.length + 1e-8)

/-- `advantages = [(r - mean_reward) / std_reward for r in rewards]` (grpo.py line 115). -/
def advantages (rewards : List ℝ) : List ℝ :=
  rewards.map fun r => (r - mean_reward rewards) / std_reward rewards

/-- `CONFIG["beta"]` (grpo.py line 37). -/
def CONFIG_beta : ℝ := 0.04

/-- `loss_fn` (grpo.py lines 125-139): per completion, with advantage `a`
and precomputed reference log-prob `ref_lp`, accumulate
`pg_loss + beta*|kl|` and `kl` where `kl = policy_lp - ref_lp` and
`pg_loss = -a * policy_lp`; return both accumulators divided by
`n = len(completions)`. -/
def loss_fn {α : Type} (policy_lp : α → ℝ) (beta : ℝ) (completions : List α)
    (advs ref_log_probs : List ℝ) : ℝ × ℝ :=
  let terms := (completions.zip (advs.zip ref_log_probs)).map fun x =>
    let policy := policy_lp x.1
    let kl := policy - x.2.2
    let pg_loss := -x.2.1 * policy
    (pg_loss + beta * |kl|, kl)
  let n : ℝ := completions.length
  ((terms.map Prod.fst).sum / n, (terms.map Prod.snd).sum / n)

/-- The temperature schedule `1.0 + 1.0 * i / max(1, num_generations - 1)`
(grpo.py line 105). -/
def gen_temp (num_generations i : Nat) : ℝ :=
  1 + 1 * i / max 1 (num_generations - 1)

/-- The per-step data of `grpo_step` (grpo.py lines 98-149): the group of
completions and the aligned reward / advantage / reference log-prob lists,
plus the returned loss, kl and mean reward. -/
structure GRPOStep (α : Type) where
  completions : List α
  rewards : List ℝ
  advantages : List ℝ
  ref_log_probs : List ℝ
  loss : ℝ
  kl : ℝ
  mean_reward : ℝ

/-- `grpo_step` (grpo.py lines 98-149) with the model calls abstracted:
`gen i temp` is the completion sampled at loop index `i` and temperature
`temp`; `reward` is `compute_reward(query, ·)`; `ref_lp`/`policy_lp` are
`compute_log_prob` against the frozen reference and the live policy. -/
def grpo_step {α : Type} (gen : Nat → ℝ → α) (reward : α → ℝ) (ref_lp : α → ℝ)
    (policy_lp : α → ℝ) (beta : ℝ) (num_generations : Nat) : GRPOStep α :=
  let completions := (List.range num_generations).map fun i =>
    gen i (gen_temp num_generations i)
  let rewards := completions.map reward
  let advs := advantages rewards
  let refs := completions.map ref_lp
  let lk := loss_fn policy_lp beta completions advs refs
  { completions := completions, rewards := rewards, advantages := advs,
    ref_log_probs := refs, loss := lk.1, kl := lk.2,
    mean_reward := mean_reward rewards }

end

/-- C2: the advantage estimator returns one advantage per reward, the
group-relative value `(r - mean) / std` with the population standard
deviation floored by `1e-8` under the square root; the floored standard
deviation is strictly positive for every group, and when all rewards in
the group are equal every advantage is exactly `0`. -/
theorem advantages_correct (rewards : List ℝ) (c : ℝ) (h2 : 2 ≤ rewards.length) :
    (advantages rewards).length = rewards.length ∧
    0 < std_reward rewards ∧
    advantages rewards =
      rewards.map (fun r => (r - mean_reward rewards) / std_reward rewards) ∧
    ((∀ r ∈ rewards, r = c) → ∀ a ∈ advantages rewards, a = 0) := by
  refine ⟨List.length_map _ _, ?_, rfl, ?_⟩
  · apply Real.sqrt_pos.mpr
    have hsum : 0 ≤ (rewards.map fun r => (r - mean_reward rewards) ^ 2).sum := by
      apply List.sum_nonneg
      intro x hx
      obtain ⟨r, _, rfl⟩ := List.mem_map.mp hx
      positivity
    have hdiv : 0 ≤ (rewards.map fun r => (r - mean_reward rewards) ^ 2).sum /
        (rewards.length : ℝ) := by positivity
    have : (0 : ℝ) < 1e-8 := by norm_num
    linarith
  · intro hall a ha
    obtain ⟨r, hr, rfl⟩ := List.mem_map.mp ha
    have hlen : (rewards.length : ℝ) ≠ 0 := by
      have : 0 < rewards.length := by omega
      positivity
    have hmean : mean_reward rewards = c := by
      have hsum : rewards.sum = rewards.length • c := List.sum_eq_card_nsmul rewards c hall
      rw [mean_reward, hsum, nsmul_eq_mul, mul_comm, mul_div_assoc, div_self hlen, mul_one]
    rw [hall r hr, hmean, sub_self, zero_div]

/-- Witness for `advantages_correct`: the constant group `[1, 1]` yields
all-zero advantages. -/
theorem advantages_correct_witness : advantages [(1 : ℝ), 1] = [0, 0] := by
  have h := (advantages_correct [(1 : ℝ), 1] 1 (by norm_num)).2.2.2 (by
    intro r hr
    rcases List.mem_cons.mp hr with h | h
    · exact h
    · simpa using h)
  have h0 : (1 - mean_reward [(1 : ℝ), 1]) / std_reward [(1 : ℝ), 1] = 0 := by
    apply h
    simp [advantages]
  simp [advantages, h0]

lemma zip3_map_sum {α : Type} (f : α × ℝ × ℝ → ℝ) (cs : List α) (as bs : List ℝ) (d : α)
    (hac : as.length = cs.length) (hbc : bs.length = cs.length) :
    ((cs.zip (as.zip bs)).map f).sum =
      ((List.range cs.length).map fun i => f (cs.getD i d, as.getD i 0, bs.getD i 0)).sum := by
  induction cs generalizing as bs with
  | nil => simp
  | cons c cs ih =>
    cases as with
    | nil => simp at hac
    | cons a as =>
      cases bs with
      | nil => simp at hbc
      | cons b bs =>
        have hac' : as.length = cs.length := by simpa using hac
        have hbc' : bs.length = cs.length := by simpa using hbc
        rw [List.length_cons, List.range_succ_eq_map]
        simp only [List.zip_cons_cons, List.map_cons, List.sum_cons, List.map_map,
          List.getD_cons_zero]
        congr 1
        rw [ih as bs hac' hbc']
        apply congrArg
        apply List.map_congr_left
        intro i _
        simp

/-- C3: `loss_fn` returns, as `(loss, kl)`, the arithmetic means over the
group of `term_c = -a_c * policy_lp_c + beta * |policy_lp_c - ref_lp_c|`
and of `kl_c = policy_lp_c - ref_lp_c`, where `beta` is the fixed
coefficient `CONFIG["beta"] = 0.04` and the penalty uses the absolute
value of the per-sequence KL approximation. -/
theorem loss_fn_correct {α : Type} (policy_lp : α → ℝ) (cs : List α) (advs bs : List ℝ)
    (d : α) (hac : advs.length = cs.length) (hbc : bs.length = cs.length) :
    CONFIG_beta = 4 / 100 ∧
    (loss_fn policy_lp CONFIG_beta cs advs bs).1 =
      ((List.range cs.length).map fun i =>
        -(advs.getD i 0) * policy_lp (cs.getD i d) +
          CONFIG_beta * |policy_lp (cs.getD i d) - bs.getD i 0|).sum / cs.length ∧
    (loss_fn policy_lp CONFIG_beta cs advs bs).2 =
      ((List.range cs.length).map fun i =>
        policy_lp (cs.getD i d) - bs.getD i 0).sum / cs.length := by
  refine ⟨by norm_num [CONFIG_beta], ?_, ?_⟩
  · calc (loss_fn policy_lp CONFIG_beta cs advs bs).1
        = ((cs.zip (advs.zip bs)).map (fun x : α × ℝ × ℝ =>
            -x.2.1 * policy_lp x.1 + CONFIG_beta * |policy_lp x.1 - x.2.2|)).sum /
            (cs.length : ℝ) := by
          simp only [loss_fn, List.map_map]
          rfl
      _ = _ := by
          rw [zip3_map_sum (fun x : α × ℝ × ℝ =>
            -x.2.1 * policy_lp x.1 + CONFIG_beta * |policy_lp x.1 - x.2.2|) cs advs bs d hac hbc]
  · calc (loss_fn policy_lp CONFIG_beta cs advs bs).2
        = ((cs.zip (advs.zip bs)).map (fun x : α × ℝ × ℝ =>
            policy_lp x.1 - x.2.2)).sum / (cs.length : ℝ) := by
          simp only [loss_fn, List.map_map]
          rfl
      _ = _ := by
          rw [zip3_map_sum (fun x : α × ℝ × ℝ => policy_lp x.1 - x.2.2) cs advs bs d hac hbc]

/-- Witness for `loss_fn_correct`: a singleton group with policy log-prob 2
and reference log-prob 1 has mean KL equal to 1. -/
theorem loss_fn_correct_witness :
    (loss_fn (fun _ : Nat => (2 : ℝ)) CONFIG_beta [0] [(1 : ℝ)] [(1 : ℝ)]).2 = 1 := by
  rw [(loss_fn_correct (fun _ : Nat => (2 : ℝ)) [0] [(1 : ℝ)] [(1 : ℝ)] 0 rfl rfl).2.2]
  simp [List.range_succ]
  norm_num

/-- C4: in every GRPO step the completions, rewards, advantages and
reference log-prob lists all have length `N = num_generations`, and the
index-wise 1:1 correspondence is preserved: entry `i` of `rewards` is the
reward of completion `i`, entry `i` of `ref_log_probs` is the reference
log-prob of completion `i`, and entry `i` of `advantages` is the
normalized value of reward `i`. -/
theorem grpo_step_invariant {α : Type} (gen : Nat → ℝ → α) (reward ref_lp policy_lp : α → ℝ)
    (beta : ℝ) (N : Nat) (d : α) :
    (grpo_step gen reward ref_lp policy_lp beta N).completions.length = N ∧
    (grpo_step gen reward ref_lp policy_lp beta N).rewards.length = N ∧
    (grpo_step gen reward ref_lp policy_lp beta N).advantages.length = N ∧
    (grpo_step gen reward ref_lp policy_lp beta N).ref_log_probs.length = N ∧
    ∀ i, i < N →
      (grpo_step gen reward ref_lp policy_lp beta N).rewards.getD i 0 =
        reward ((grpo_step gen reward ref_lp policy_lp beta N).completions.getD i d) ∧
      (grpo_step gen reward ref_lp policy_lp beta N).ref_log_probs.getD i 0 =
        ref_lp ((grpo_step gen reward ref_lp policy_lp beta N).completions.getD i d) ∧
      (grpo_step gen reward ref_lp policy_lp beta N).advantages.getD i 0 =
        ((grpo_step gen reward ref_lp policy_lp beta N).rewards.getD i 0 -
          mean_reward (grpo_step gen reward ref_lp policy_lp beta N).rewards) /
          std_reward (grpo_step gen reward ref_lp policy_lp beta N).rewards := by
  have hc : (grpo_step gen reward ref_lp policy_lp beta N).completions =
      (List.range N).map (fun i => gen i (gen_temp N i)) := rfl
  have hr : (grpo_step gen reward ref_lp policy_lp beta N).rewards =
      (grpo_step gen reward ref_lp policy_lp beta N).completions.map reward := rfl
  have ha : (grpo_step gen reward ref_lp policy_lp beta N).advantages =
      advantages (grpo_step gen reward ref_lp policy_lp beta N).rewards := rfl
  have hf : (grpo_step gen reward ref_lp policy_lp beta N).ref_log_probs =
      (grpo_step gen reward ref_lp policy_lp beta N).completions.map ref_lp := rfl
  have hlc : (grpo_step gen reward ref_lp policy_lp beta N).completions.length = N := by
    rw [hc]; simp
  have hlr : (grpo_step gen reward ref_lp policy_lp beta N).rewards.length = N := by
    rw [hr, List.length_map, hlc]
  refine ⟨hlc, hlr, by rw [ha, advantages, List.length_map, hlr],
    by rw [hf, List.length_map, hlc], ?_⟩
  intro i hi
  refine ⟨?_, ?_, ?_⟩
  · rw [hr, List.getD_eq_getElem _ _ (by rw [List.length_map, hlc]; exact hi),
      List.getD_eq_getElem _ _ (by rw [hlc]; exact hi)]
    exact List.getElem_map reward
  · rw [hf, List.getD_eq_getElem _ _ (by rw [List.length_map, hlc]; exact hi),
      List.getD_eq_getElem _ _ (by rw [hlc]; exact hi)]
    exact List.getElem_map ref_lp
  · rw [ha, advantages, List.getD_eq_getElem _ _ (by rw [List.length_map, hlr]; exact hi),
      List.getD_eq_getElem _ _ (by rw [hlr]; exact hi)]
    exact List.getElem_map _

/-- Witness for `grpo_step_invariant` with the configured group size 4. -/
theorem grpo_step_invariant_witness :
    (grpo_step (fun i _ => i) (fun _ : Nat => (1 : ℝ)) (fun _ => 0) (fun _ => 0)
      CONFIG_beta 4).completions.length = 4 ∧
    (grpo_step (fun i _ => i) (fun _ : Nat => (1 : ℝ)) (fun _ => 0) (fun _ => 0)
      CONFIG_beta 4).rewards.getD 0 0 = 1 := by
  have h := grpo_step_invariant (fun i _ => i) (fun _ : Nat => (1 : ℝ)) (fun _ => 0)
    (fun _ => 0) CONFIG_beta 4 0
  exact ⟨h.1, by rw [(h.2.2.2.2 0 (by norm_num)).1]⟩

/-! ## The trainer loop (`grpo.py` `main`, lines 220-241) -/

/-- The body of `for step in range(1, max_steps + 1)` in `main`
(grpo.py lines 220-238), with the per-step work and the checkpoint write
abstracted: `stepFn step s` is the state after `grpo_step` and the
optimizer update at step `step`; `save step s` models
`save_lora_weights(policy_model, ckpt)` at a `save_every` boundary, which
may fail (`Except.error`).  Neither `main` nor `save_lora_weights`
contains a `try/except`, so a raised exception propagates: the
`Except.error` short-circuits the remaining steps, exactly as an uncaught
Python exception aborts the loop.  The recursion is on the number of
remaining steps; `step` is the 1-based step index. -/
def trainFrom {σ ε : Type} (stepFn : Nat → σ → σ) (save : Nat → σ → Except ε Unit)
    (save_every : Nat) : Nat → Nat → σ → Except ε σ
  | 0, _, s => Except.ok s
  | n + 1, step, s =>
    let s' := stepFn step s
    match (if step % save_every == 0 then save step s' else Except.ok ()) with
    | Except.error e => Except.error e
    | Except.ok _ => trainFrom stepFn save save_every n (step + 1) s'

/-- The training loop of `main`: steps `1` to `max_steps`. -/
def train {σ ε : Type} (stepFn : Nat → σ → σ) (save : Nat → σ → Except ε Unit)
    (save_every max_steps : Nat) (s0 : σ) : Except ε σ :=
  trainFrom stepFn save save_every max_steps 1 s0

/-- C5 counterexample: a checkpoint write failure at the `save_every`
boundary ABORTS the run rather than letting training continue.  With
`save_every = 2` and `max_steps = 4`, a save that fails at step 2 makes
the whole run return the error; had the loop continued as the claim
states, the result would have been `Except.ok 4` (all four steps applied
to the step counter). -/
theorem checkpoint_failure_aborts_run :
    train (fun _ s => s + 1)
      (fun step _ => if step = 2 then Except.error "disk full" else Except.ok ())
      2 4 (0 : Nat) = Except.error "disk full" ∧
    train (fun _ s => s + 1) (fun _ _ => (Except.ok () : Except String Unit)) 2 4 (0 : Nat) =
      Except.ok 4 := by
  constructor <;> rfl

/-- C5 amended: when the checkpoint write at a `save_every` boundary
fails, `main` does not catch the exception: the error propagates
immediately and none of the remaining steps run. -/
theorem checkpoint_failure_propagates {σ ε : Type} (stepFn : Nat → σ → σ)
    (save : Nat → σ → Except ε Unit) (save_every n step : Nat) (s : σ) (e : ε)
    (hb : step % save_every = 0) (hfail : save step (stepFn step s) = Except.error e)
    (hn : n ≠ 0) :
    trainFrom stepFn save save_every n step s = Except.error e := by
  cases n with
  | zero => exact absurd rfl hn
  | succ m => simp [trainFrom, hb, hfail]

/-- Witness for `checkpoint_failure_propagates` at the concrete failing run. -/
theorem checkpoint_failure_propagates_witness :
    trainFrom (fun _ s => s + 1) (fun _ _ => Except.error "disk full") 2 3 2 (0 : Nat) =
      Except.error "disk full" :=
  checkpoint_failure_propagates (fun _ s => s + 1) (fun _ _ => Except.error "disk full")
    2 3 2 0 "disk full" rfl rfl (by decide)

/-! ## The evaluation pass (`grpo.py` `evaluate`, lines 159-183) -/

/-- The comment marker `'#'` for evaluation query files. -/
def hashTag : List Char := "#".toList

/-- The terminal marker `'<|im_end|>'` stripped from responses. -/
def imEndTag : List Char := "<|im_end|>".toList

/-- Python `s.replace(pat, "")` (fuel-structured so it reduces in the
kernel; the fuel `s.length` suffices because each step consumes at least
one character when `pat` is nonempty). -/
def pyRemoveAux (pat : List Char) : Nat → List Char → List Char
  | 0, s => s
  | _ + 1, [] => []
  | fuel + 1, c :: cs =>
    if pyStartsWith pat (c :: cs) then pyRemoveAux pat fuel ((c :: cs).drop pat.length)
    else c :: pyRemoveAux pat fuel cs

/-- Python `s.replace(pat, "")`. -/
def pyRemoveAll (pat s : List Char) : List Char := pyRemoveAux pat s.length s

/-- `resp.replace('<|im_end|>', '').strip()` (grpo.py line 173). -/
def postprocess (resp : List Char) : List Char := pyStrip (pyRemoveAll imEndTag resp)

/-- Modelled from the spec: `score_expansion_detailed(query, text)` lives
in `reward.py`, which is not among the provided sources (grpo.py imports
it).  Per the spec the scorer tests the same structural tags with the same
fixed weights as `score_expansion` — `total = format_valid*40 +
min(lex_count,3)*10 + min(vec_count,3)*10 + has_hyde*20`, a formula whose
maximum is `120`, corroborated by the training code which reports
evaluation averages out of 120 — the "richer" variant differing only in the
reward normalization applied afterwards (`total / 140` in
`compute_reward`), not in the structural score. -/
def score_expansion_detailed (query text : List Char) : RewardScore :=
  scoreOfLines (pySplitNL (pyStrip text))

/-- The query-file parse of `evaluate` (grpo.py lines 161-166): strip each
line, keep it if nonempty and not starting with `'#'`. -/
def parseQueries (file_lines : List (List Char)) : List (List Char) :=
  (file_lines.map pyStrip).filter fun l => !l.isEmpty && !(pyStartsWith hashTag l)

/-- The greedy-decoding score list of `evaluate` (grpo.py lines 168-175):
one detailed total per parsed query, with `respond` abstracting the model
call `generate(...)`. -/
def evalScores (respond : List Char → List Char) (file_lines : List (List Char)) : List Nat :=
  (parseQueries file_lines).map fun q =>
    (score_expansion_detailed q (postprocess (respond q))).total

/-- The summary dict returned by `evaluate` (grpo.py lines 177-183). -/
structure EvalSummary where
  avg : ℚ
  perfect : Nat
  total : Nat
  min : Nat
  max : Nat
  deriving Repr, DecidableEq

/-- The summary computed from the score list: `avg = sum/len`,
`perfect = #{s ≥ 100}`, `total = len`, plus min and max.  On an empty
score list Python raises (`ZeroDivisionError` in `sum/len`, `ValueError`
in `min`/`max`), modelled as `none`. -/
def summaryOfScores : List Nat → Option EvalSummary
  | [] => none
  | h :: t => some
      { avg := (((h :: t).map (Nat.cast : Nat → ℚ)).sum) / ((h :: t).length : ℚ),
        perfect := (h :: t).countP fun s => 100 ≤ s,
        total := (h :: t).length,
        min := t.foldl Nat.min h,
        max := t.foldl Nat.max h }

/-- `evaluate(model, tokenizer, queries_file)` of grpo.py, with the file
contents and the model's responses abstracted. -/
def evaluate (respond : List Char → List Char) (file_lines : List (List Char)) :
    Option EvalSummary :=
  summaryOfScores (evalScores respond file_lines)

/-- A fixed model response scoring exactly 100: one `hyde:`, two `lex:`,
two `vec:` lines (`40 + 20 + 20 + 20`). -/
def respond100 : List Char → List Char :=
  fun _ => "hyde: a\nlex: a\nlex: b\nvec: a\nvec: b".toList

/-- C8 counterexample: `perfect` does NOT count scores at or above the
maximum attainable value.  On a one-query evaluation whose response scores
exactly 100, `perfect = 1`, yet no score reaches the attainable maximum
120 (reached by the text with three `lex:`, three `vec:` and one `hyde:`
line), so the count of scores at or above the maximum is 0 ≠ 1. -/
theorem evaluate_perfect_not_max_attainable :
    Option.map EvalSummary.perfect (evaluate respond100 ["q1".toList]) = some 1 ∧
    evalScores respond100 ["q1".toList] = [100] ∧
    (score_expansion_detailed "q".toList
      "lex:a\nlex:b\nlex:c\nvec:a\nvec:b\nvec:c\nhyde:x".toList).total = 120 ∧
    (evalScores respond100 ["q1".toList]).countP (fun s => 120 ≤ s) = 0 ∧
    (1 : Nat) ≠ 0 := by
  exact ⟨by decide, by decide, by decide, by decide, by decide⟩

/-- C8 amended: `perfect` counts the evaluation scores at or above the
fixed threshold 100; the maximum attainable score of the detailed scorer
is 120 (every total is at most 120 and 120 is reached), so `perfect` also
counts non-maximal scores. -/
theorem evaluate_perfect_amended (respond : List Char → List Char)
    (fl : List (List Char)) (s : EvalSummary) (h : evaluate respond fl = some s) :
    s.perfect = (evalScores respond fl).countP (fun x => 100 ≤ x) ∧
    (∀ q t, (score_expansion_detailed q t).total ≤ 120) ∧
    (score_expansion_detailed "q".toList
      "lex:a\nlex:b\nlex:c\nvec:a\nvec:b\nvec:c\nhyde:x".toList).total = 120 := by
  refine ⟨?_, fun q t => scoreOfLines_total_le _, by decide⟩
  rw [evaluate] at h
  cases hxs : evalScores respond fl with
  | nil => rw [hxs] at h; exact absurd h (by simp [summaryOfScores])
  | cons x xs =>
    rw [hxs] at h
    simp only [summaryOfScores, Option.some.injEq] at h
    rw [← h]

/-- Witness for `evaluate_perfect_amended` at the concrete one-query run. -/
theorem evaluate_perfect_amended_witness :
    (EvalSummary.mk 100 1 1 100 100).perfect =
      (evalScores respond100 ["q1".toList]).countP (fun x => 100 ≤ x) := by
  have hrun : evaluate respond100 ["q1".toList] = some (EvalSummary.mk 100 1 1 100 100) := by
    have h1 : evalScores respond100 ["q1".toList] = [100] := by decide
    rw [evaluate, h1]
    simp only [summaryOfScores, Option.some.injEq, EvalSummary.mk.injEq]
    refine ⟨by simp, by decide, by decide, by decide, by decide⟩
  exact (evaluate_perfect_amended respond100 ["q1".toList]
    (EvalSummary.mk 100 1 1 100 100) hrun).1

/-- C10: when the query file yields no usable query (every line is blank
or a `'#'` comment after stripping), `evaluate` produces no summary at all
(Python raises `ZeroDivisionError` computing the average); and a returned
summary never has `total = 0`. -/
theorem evaluate_no_usable_queries (respond : List Char → List Char)
    (file_lines : List (List Char))
    (h : ∀ l ∈ file_lines, (pyStrip l).isEmpty = true ∨
      pyStartsWith hashTag (pyStrip l) = true) :
    evaluate respond file_lines = none ∧
    ∀ (respond' : List Char → List Char) (fl' : List (List Char)) (s : EvalSummary),
      evaluate respond' fl' = some s → s.total ≠ 0 := by
  constructor
  · have hq : parseQueries file_lines = [] := by
      rw [parseQueries, List.filter_eq_nil_iff]
      intro a ha
      obtain ⟨l, hl, rfl⟩ := List.mem_map.mp ha
      rcases h l hl with h1 | h1 <;> simp [h1]
    rw [evaluate, evalScores, hq]
    rfl
  · intro respond' fl' s hs
    rw [evaluate] at hs
    cases hxs : evalScores respond' fl' with
    | nil => rw [hxs] at hs; exact absurd hs (by simp [summaryOfScores])
    | cons x xs =>
      rw [hxs] at hs
      simp only [summaryOfScores, Option.some.injEq] at hs
      rw [← hs]
      simp

/-- Witness for `evaluate_no_usable_queries`: a file of one blank line and
one comment line yields no summary. -/
theorem evaluate_no_usable_queries_witness :
    evaluate (fun _ => []) ["  ".toList, "# comment".toList] = none :=
  (evaluate_no_usable_queries (fun _ => []) ["  ".toList, "# comment".toList]
    (by decide)).1

end QMD
